import Mathlib

/-!
Verification of the vsc-download-compressed extension core
(src/extension.ts) against its natural-language specification.

The TypeScript source is shallowly embedded: pure helpers become Lean
functions, the asynchronous command handler becomes a pure function from
an explicit environment (results of every external probe, every user
choice, and the transfer process result) to a record of the observable
run (final outcome, the ordered list of shell commands executed, and the
transfer command built, if any).
-/

/-! ## String containment (JS String.prototype.includes) -/

/-- Boolean test that the first list is a prefix of the second. -/
def isPrefixChars : List Char → List Char → Bool
  | [], _ => true
  | _ :: _, [] => false
  | a :: as, b :: bs => a == b && isPrefixChars as bs

/-- Boolean test that the first list occurs contiguously inside the second. -/
def isInfixChars (needle : List Char) : List Char → Bool
  | [] => isPrefixChars needle []
  | c :: cs => isPrefixChars needle (c :: cs) || isInfixChars needle cs

/-- Model of JS s.includes(sub): sub occurs as a substring of s. -/
def includes (s sub : String) : Bool :=
  isInfixChars sub.data s.data

theorem isPrefixChars_append (l t : List Char) : isPrefixChars l (l ++ t) = true := by
  induction l with
  | nil => rfl
  | cons a as ih => simp [isPrefixChars, ih]

theorem isInfixChars_of_prefix (n h : List Char) (hp : isPrefixChars n h = true) :
    isInfixChars n h = true := by
  cases h with
  | nil => simpa [isInfixChars] using hp
  | cons c cs => simp [isInfixChars, hp]

theorem isInfixChars_append_mid (pre n suf : List Char) :
    isInfixChars n (pre ++ (n ++ suf)) = true := by
  induction pre with
  | nil => exact isInfixChars_of_prefix n (n ++ suf) (isPrefixChars_append n suf)
  | cons c cs ih =>
      have h2 : isInfixChars n ((c :: cs) ++ (n ++ suf)) =
          (isPrefixChars n ((c :: cs) ++ (n ++ suf)) || isInfixChars n (cs ++ (n ++ suf))) := rfl
      rw [h2, ih, Bool.or_true]

theorem includes_append_mid (a s b : String) : includes (a ++ (s ++ b)) s = true := by
  unfold includes
  rw [String.data_append, String.data_append]
  exact isInfixChars_append_mid a.data s.data b.data

theorem includes_refl (s : String) : includes s s = true := by
  simpa using includes_append_mid "" s ""

/-! ## Version comparator (compareVersions, extension.ts lines 41-52)

JS Number() applied to a version segment yields NaN on non-numeric text;
NaN makes both comparisons in the loop false. Segments are modelled as
Option Nat with none standing for NaN. -/

/-- Value of a list of decimal digit characters. -/
def digitsToNat (cs : List Char) : Nat :=
  cs.foldl (fun acc c => acc * 10 + (c.toNat - 48)) 0

/-- Model of JS Number() restricted to the strings produced by splitting a
version string: the empty string is 0, a digit string is its exact
integer value (the idealisation of the JS double, exact below 2^53), and
anything else is NaN (none). -/
def jsNumber (s : String) : Option Nat :=
  if s.data.isEmpty then some 0
  else if s.data.all Char.isDigit then some (digitsToNat s.data)
  else none

/-- JS numeric greater-than on possibly-NaN values: any comparison with
NaN is false. -/
def jsGT : Option Nat → Option Nat → Bool
  | some a, some b => decide (b < a)
  | _, _ => false

/-- Loop body of compareVersions: the source iterates i from 0 below
max(v1parts.length, v2parts.length), reads part i of each list with an
out-of-range default of 0 (the ?? 0), and returns on the first strict
inequality; reaching the end yields 0. The iteration count is the fuel,
and advancing i is dropping the heads. -/
def cmpPartsLoop : Nat → List (Option Nat) → List (Option Nat) → Int
  | 0, _, _ => 0
  | Nat.succ n, xs, ys =>
      if jsGT (xs.headD (some 0)) (ys.headD (some 0)) then 1
      else if jsGT (ys.headD (some 0)) (xs.headD (some 0)) then -1
      else cmpPartsLoop n xs.tail ys.tail

/-- Comparison of two segment lists exactly as the source loop performs it. -/
def cmpParts (xs ys : List (Option Nat)) : Int :=
  cmpPartsLoop (max xs.length ys.length) xs ys

/-- Model of JS String.prototype.split with a single-character separator:
splitting the empty string yields one empty segment, a separator at the
start, end, or doubled yields empty segments. -/
def splitOnChar (sep : Char) : List Char → List (List Char)
  | [] => [[]]
  | c :: cs =>
      if c = sep then [] :: splitOnChar sep cs
      else
        match splitOnChar sep cs with
        | [] => [[c]]
        | g :: gs => (c :: g) :: gs

/-- Dot-separated segments of a version string, as in v.split(".") in the
source. -/
def splitDots (v : String) : List String :=
  (splitOnChar '.' v.data).map fun cs => String.mk cs

/-- Segments of a version string as JS numbers: split on dots, Number() each. -/
def parsedParts (v : String) : List (Option Nat) :=
  (splitDots v).map jsNumber

/-- Embedding of compareVersions: split both strings on dots, convert the
parts with Number(), compare left to right with zero padding. -/
def compareVersions (v1 v2 : String) : Int :=
  cmpParts (parsedParts v1) (parsedParts v2)

/-- A version segment is well formed when it is a non-empty digit string. -/
def isDigitString (s : String) : Bool :=
  !s.data.isEmpty && s.data.all Char.isDigit

/-- A version string is well formed when every dot-separated segment is a
non-empty digit string. -/
def wellFormedVersion (v : String) : Bool :=
  (splitDots v).all isDigitString

/-- Numeric segments of a version string, with NaN collapsed to 0 (never
hit on well-formed input). -/
def versionParts (v : String) : List Nat :=
  (splitDots v).map (fun s => (jsNumber s).getD 0)

/-- Pad a tuple of numeric components with zeros up to length n. -/
def padZeros (xs : List Nat) (n : Nat) : List Nat :=
  xs ++ List.replicate (n - xs.length) 0

/-- Specification-side comparator: componentwise left-to-right comparison
of two equally padded tuples, returning on the first differing component. -/
def lexCompare : List Nat → List Nat → Int
  | [], _ => 0
  | _, [] => 0
  | x :: xs, y :: ys =>
      if y < x then 1 else if x < y then -1 else lexCompare xs ys

theorem jsGT_asymm (x y : Option Nat) (h : jsGT x y = true) : jsGT y x = false := by
  cases x with
  | none => simp [jsGT] at h
  | some a =>
      cases y with
      | none => simp [jsGT] at h
      | some b =>
          simp [jsGT] at h ⊢
          omega

theorem jsGT_irrefl (x : Option Nat) : jsGT x x = false := by
  cases x with
  | none => rfl
  | some a => simp [jsGT]

theorem cmpPartsLoop_step (n : Nat) (xs ys : List (Option Nat)) :
    cmpPartsLoop (n + 1) xs ys =
      if jsGT (xs.headD (some 0)) (ys.headD (some 0)) then 1
      else if jsGT (ys.headD (some 0)) (xs.headD (some 0)) then -1
      else cmpPartsLoop n xs.tail ys.tail := rfl

theorem cmpPartsLoop_neg (n : Nat) : ∀ xs ys : List (Option Nat),
    cmpPartsLoop n xs ys = -(cmpPartsLoop n ys xs) := by
  induction n with
  | zero => intro xs ys; rfl
  | succ n ih =>
      intro xs ys
      rw [cmpPartsLoop_step, cmpPartsLoop_step]
      by_cases h1 : jsGT (xs.headD (some 0)) (ys.headD (some 0)) = true
      · have h2 := jsGT_asymm _ _ h1
        have h2n : ¬ (jsGT (ys.headD (some 0)) (xs.headD (some 0)) = true) :=
          ne_true_of_eq_false h2
        rw [if_pos h1, if_neg h2n, if_pos h1]
        decide
      · by_cases h2 : jsGT (ys.headD (some 0)) (xs.headD (some 0)) = true
        · rw [if_neg h1, if_pos h2, if_pos h2]
        · rw [if_neg h1, if_neg h2, if_neg h2, if_neg h1]
          exact ih xs.tail ys.tail

theorem cmpPartsLoop_refl (n : Nat) : ∀ xs : List (Option Nat),
    cmpPartsLoop n xs xs = 0 := by
  induction n with
  | zero => intro xs; rfl
  | succ n ih =>
      intro xs
      rw [cmpPartsLoop_step]
      simp [jsGT_irrefl, ih xs.tail]

theorem cmpParts_neg (xs ys : List (Option Nat)) :
    cmpParts xs ys = -(cmpParts ys xs) := by
  unfold cmpParts
  rw [Nat.max_comm ys.length xs.length]
  exact cmpPartsLoop_neg _ xs ys

theorem cmpParts_refl (xs : List (Option Nat)) : cmpParts xs xs = 0 :=
  cmpPartsLoop_refl _ xs

theorem lexCompare_cons (x y : Nat) (xs ys : List Nat) :
    lexCompare (x :: xs) (y :: ys) =
      if y < x then 1 else if x < y then -1 else lexCompare xs ys := rfl

theorem padZeros_cons (x : Nat) (xs : List Nat) (n : Nat) :
    padZeros (x :: xs) (n + 1) = x :: padZeros xs n := by
  simp [padZeros, Nat.succ_sub_succ]

theorem padZeros_nil (n : Nat) :
    padZeros ([] : List Nat) (n + 1) = 0 :: padZeros [] n := by
  simp [padZeros, List.replicate_succ]

theorem cmpPartsLoop_eq_lexCompare (n : Nat) : ∀ xs ys : List Nat,
    xs.length ≤ n → ys.length ≤ n →
    cmpPartsLoop n (xs.map some) (ys.map some) =
      lexCompare (padZeros xs n) (padZeros ys n) := by
  induction n with
  | zero =>
      intro xs ys hx hy
      have hx0 : xs = [] := List.eq_nil_of_length_eq_zero (Nat.le_zero.mp hx)
      have hy0 : ys = [] := List.eq_nil_of_length_eq_zero (Nat.le_zero.mp hy)
      subst hx0; subst hy0; rfl
  | succ n ih =>
      intro xs ys hx hy
      rw [cmpPartsLoop_step]
      cases xs with
      | nil =>
          cases ys with
          | nil =>
              rw [padZeros_nil, lexCompare_cons]
              have hih := ih [] [] (Nat.zero_le n) (Nat.zero_le n)
              simp only [List.map_nil] at hih
              simp [jsGT, hih]
          | cons y ys =>
              rw [padZeros_nil, padZeros_cons, lexCompare_cons]
              have hy2 : ys.length ≤ n := by
                simpa using Nat.le_of_succ_le_succ hy
              by_cases h : 0 < y
              · simp [jsGT, h]
              · have hy0 : y = 0 := by omega
                subst hy0
                have hih := ih [] ys (Nat.zero_le n) hy2
                simp only [List.map_nil] at hih
                simp [jsGT, hih]
      | cons x xs =>
          have hx2 : xs.length ≤ n := by
            simpa using Nat.le_of_succ_le_succ hx
          cases ys with
          | nil =>
              rw [padZeros_nil, padZeros_cons, lexCompare_cons]
              by_cases h : 0 < x
              · simp [jsGT, h]
              · have hx0 : x = 0 := by omega
                subst hx0
                have hih := ih xs [] hx2 (Nat.zero_le n)
                simp only [List.map_nil] at hih
                simp [jsGT, hih]
          | cons y ys =>
              have hy2 : ys.length ≤ n := by
                simpa using Nat.le_of_succ_le_succ hy
              rw [padZeros_cons, padZeros_cons, lexCompare_cons]
              by_cases h1 : y < x
              · simp [jsGT, h1]
              · by_cases h2 : x < y
                · simp [jsGT, h1, h2]
                · simp [jsGT, h1, h2, ih xs ys hx2 hy2]

theorem jsNumber_of_digitString (s : String) (hs : isDigitString s = true) :
    jsNumber s = some ((jsNumber s).getD 0) := by
  unfold isDigitString at hs
  simp only [Bool.and_eq_true, Bool.not_eq_true'] at hs
  simp [jsNumber, hs.1, hs.2]

theorem map_jsNumber_of_all_digit : ∀ l : List String, l.all isDigitString = true →
    l.map jsNumber = (l.map (fun s => (jsNumber s).getD 0)).map some := by
  intro l h
  induction l with
  | nil => rfl
  | cons s l ih =>
      simp only [List.all_cons, Bool.and_eq_true] at h
      simp only [List.map_cons, ih h.2]
      congr 1
      exact jsNumber_of_digitString s h.1

theorem parsedParts_of_wellFormed (v : String) (h : wellFormedVersion v = true) :
    parsedParts v = (versionParts v).map some := by
  unfold wellFormedVersion at h
  unfold parsedParts versionParts
  exact map_jsNumber_of_all_digit (splitDots v) h

theorem compareVersions_eq_lexCompare (v1 v2 : String)
    (h1 : wellFormedVersion v1 = true) (h2 : wellFormedVersion v2 = true) :
    compareVersions v1 v2 =
      lexCompare
        (padZeros (versionParts v1) (max (versionParts v1).length (versionParts v2).length))
        (padZeros (versionParts v2) (max (versionParts v1).length (versionParts v2).length)) := by
  unfold compareVersions cmpParts
  rw [parsedParts_of_wellFormed v1 h1, parsedParts_of_wellFormed v2 h2]
  simp only [List.length_map]
  exact cmpPartsLoop_eq_lexCompare _ (versionParts v1) (versionParts v2)
    (Nat.le_max_left _ _) (Nat.le_max_right _ _)

/-! ## Transfer classification and reporting (extension.ts lines 294-325)

Node exec invokes the callback with error = null exactly when the process
exited with code 0; a non-zero exit yields a non-null error carrying that
exit code. The callback first branches on error, and only inside the
error branch scans stderr for the two authentication substrings. -/

/-- Result of the rsync child process as delivered to the exec callback:
exitError is none when the process exited 0, some code otherwise. -/
structure ExecResult where
  exitError : Option Int
  stdout : String
  stderr : String
deriving DecidableEq

/-- Outcome classification of one transfer invocation. -/
inductive TransferOutcome
  | success
  | authFailure
  | genericFailure (exitCode : Int) (message : String)
deriving DecidableEq

/-- Scan of the combined stderr for the two authentication substrings, as
in the source condition stderr.includes("Permission denied") ||
stderr.includes("Authentication failed"). -/
def authErrorIn (stderr : String) : Bool :=
  includes stderr "Permission denied" || includes stderr "Authentication failed"

/-- Embedding of the exec callback classification: branch on error first;
inside the error branch, auth substrings beat the generic failure; no
error means success, with no scan of stderr at all. -/
def classify (r : ExecResult) : TransferOutcome :=
  match r.exitError with
  | some code =>
      if authErrorIn r.stderr then TransferOutcome.authFailure
      else TransferOutcome.genericFailure code r.stderr
  | none => TransferOutcome.success

/-- Exit code of the process: 0 when exec reported no error. -/
def exitCodeOf (r : ExecResult) : Int :=
  r.exitError.getD 0

/-- Modelled from the spec (claim C1 wording): classification with the
auth-substring scan taking precedence over the exit code, so that an auth
substring yields authFailure even on exit code 0. Compared against
classify, which is the embedding of the source. -/
def classifySpec (exitCode : Int) (stderr : String) : TransferOutcome :=
  if authErrorIn stderr then TransferOutcome.authFailure
  else if exitCode ≠ 0 then TransferOutcome.genericFailure exitCode stderr
  else TransferOutcome.success

/-- Reporter-visible events emitted by the exec callback. -/
inductive ReporterEvent
  | appendLine (text : String)
  | showInfo (text : String)
  | showError (text : String)
deriving DecidableEq

/-- Text carried by a reporter event. -/
def eventText : ReporterEvent → String
  | ReporterEvent.appendLine t => t
  | ReporterEvent.showInfo t => t
  | ReporterEvent.showError t => t

/-- Error message of the auth-failure branch. -/
def authFailMessage : String :=
  "Passwordless SSH authentication failed. Please re-check your SSH setup."

/-- Ordered reporter events the exec callback emits: on failure a single
error message (carrying stderr verbatim in the non-auth case); on success
the stdout appended to the output channel, then the completion message. -/
def execCallback (r : ExecResult) (destinationPath : String) : List ReporterEvent :=
  match r.exitError with
  | some _ =>
      if authErrorIn r.stderr then [ReporterEvent.showError authFailMessage]
      else
        [ReporterEvent.showError
          ("rsync failed: " ++ (r.stderr ++ ". Please check the output for more details."))]
  | none =>
      [ReporterEvent.appendLine r.stdout,
       ReporterEvent.showInfo ("Download complete. Files saved to: " ++ destinationPath)]

/-- An output string is delivered to the reporter strictly before the
final event (which is the one reporting the outcome) when some earlier
event text contains it. -/
def deliveredBeforeFinal (evs : List ReporterEvent) (s : String) : Bool :=
  evs.dropLast.any fun e => includes (eventText e) s

/-- Claim C2 as stated, at one input: both streams of the process output
reach the reporter before the final outcome report. -/
def claimC2Holds (r : ExecResult) (destinationPath : String) : Prop :=
  (r.stdout ≠ "" → deliveredBeforeFinal (execCallback r destinationPath) r.stdout = true) ∧
  (r.stderr ≠ "" → deliveredBeforeFinal (execCallback r destinationPath) r.stderr = true)

/-! ## Transfer command construction (extension.ts lines 281-286) -/

/-- Model of JS Array.prototype.join(" "): the space-separated
concatenation of a list of strings. -/
def joinSp : List String → String
  | [] => ""
  | s :: ss =>
      match ss with
      | [] => s
      | _ :: _ => s ++ (" " ++ joinSp ss)

/-- Wrap a string in double quotes. -/
def dquote (s : String) : String :=
  "\"" ++ (s ++ "\"")

/-- One element of the remoteFiles array: the remote identity, a colon and
the remote path, wrapped in double quotes. -/
def remoteFileToken (remoteName filePath : String) : String :=
  dquote (remoteName ++ (":" ++ filePath))

/-- The remoteFiles array of the source: one quoted remote:path token per
selected uri, in selection order. -/
def remoteFiles (remoteName : String) (paths : List String) : List String :=
  paths.map (remoteFileToken remoteName)

/-- Fixed head of the rsync command line, up to and including the space
after the quoted inner ssh transport option. -/
def rsyncPrefixStr : String :=
  "rsync -P -avz -e \"ssh -o BatchMode=yes\" "

/-- Embedding of the command template: prefix, the joined remote file
tokens, then the quoted destination path last. -/
def buildCommand (remoteName : String) (paths : List String) (destinationPath : String) : String :=
  rsyncPrefixStr ++ (joinSp (remoteFiles remoteName paths) ++ (" \"" ++ (destinationPath ++ "\"")))

/-- Fixed leading tokens of the rsync invocation. -/
def rsyncFixedTokens : List String :=
  ["rsync", "-P", "-avz", "-e", "\"ssh -o BatchMode=yes\""]

/-- Token view of the built command: fixed tokens, one quoted token per
target in order, quoted destination last. -/
def commandTokens (remoteName : String) (paths : List String) (destinationPath : String) :
    List String :=
  rsyncFixedTokens ++ (remoteFiles remoteName paths ++ [dquote destinationPath])

theorem joinSp_cons (s : String) (ss : List String) (h : ss ≠ []) :
    joinSp (s :: ss) = s ++ (" " ++ joinSp ss) := by
  cases ss with
  | nil => exact absurd rfl h
  | cons t ts => rfl

theorem joinSp_append (l1 l2 : List String) (h1 : l1 ≠ []) (h2 : l2 ≠ []) :
    joinSp (l1 ++ l2) = joinSp l1 ++ (" " ++ joinSp l2) := by
  induction l1 with
  | nil => exact absurd rfl h1
  | cons s ss ih =>
      cases hss : ss with
      | nil =>
          subst hss
          simp only [List.singleton_append]
          rw [joinSp_cons s l2 h2]
          rfl
      | cons t ts =>
          subst hss
          have hne : (t :: ts) ++ l2 ≠ [] := by simp
          have hrec := ih (by simp)
          calc joinSp ((s :: t :: ts) ++ l2)
              = joinSp (s :: ((t :: ts) ++ l2)) := rfl
            _ = s ++ (" " ++ joinSp ((t :: ts) ++ l2)) := joinSp_cons s _ hne
            _ = s ++ (" " ++ (joinSp (t :: ts) ++ (" " ++ joinSp l2))) := by rw [hrec]
            _ = (s ++ (" " ++ joinSp (t :: ts))) ++ (" " ++ joinSp l2) := by
                  rw [String.append_assoc, String.append_assoc]
            _ = joinSp (s :: t :: ts) ++ (" " ++ joinSp l2) := by
                  rw [joinSp_cons s (t :: ts) (by simp)]

theorem buildCommand_eq_joinSp_tokens (r d : String) (ps : List String) (h : ps ≠ []) :
    buildCommand r ps d = joinSp (commandTokens r ps d) := by
  have hfiles : remoteFiles r ps ≠ [] := by
    unfold remoteFiles
    simpa using h
  have hfix : rsyncFixedTokens ≠ [] := by simp [rsyncFixedTokens]
  have htail : remoteFiles r ps ++ [dquote d] ≠ [] := by simp
  unfold commandTokens
  rw [joinSp_append rsyncFixedTokens _ hfix htail,
      joinSp_append (remoteFiles r ps) [dquote d] hfiles (by simp)]
  have hjfix : joinSp rsyncFixedTokens = "rsync -P -avz -e \"ssh -o BatchMode=yes\"" := rfl
  have hjdq : joinSp [dquote d] = dquote d := rfl
  rw [hjfix, hjdq]
  unfold buildCommand dquote
  have hpre : rsyncPrefixStr = "rsync -P -avz -e \"ssh -o BatchMode=yes\"" ++ " " := by
    decide
  rw [hpre]
  have hlit : (" " : String) ++ "\"" = " \"" := by decide
  have hq : " \"" ++ (d ++ "\"") = " " ++ ("\"" ++ (d ++ "\"")) := by
    rw [← hlit, String.append_assoc]
  rw [hq]
  simp only [String.append_assoc]

/-! ## Workflow model (the compress_download command handler)

The handler is asynchronous and interactive; it is embedded as a pure
function of an environment that fixes everything external: the platform,
the workspace folder, the command arguments, the resolved result of each
probe, each user dialog choice, and the result of the transfer process.
The run records the final outcome, the shell commands handed to exec in
order, and the transfer command string, if one was ever constructed. -/

/-- Workspace folder as seen by the handler: uri scheme and (decoded)
authority. -/
structure Folder where
  scheme : String
  authority : String
deriving DecidableEq

/-- Everything external to one invocation of the command handler. -/
structure Env where
  platform : String
  folder : Option Folder
  fileUriPath : String
  selectedUris : Option (List String)
  rsyncOk : Bool
  installChoice : Option String
  installFails : Bool
  sshOk : Bool
  instructionsChoice : Option String
  localKeyExists : Bool
  defaultDownloadLocation : Option String
  inputBoxResult : Option String
  rsyncResult : ExecResult
deriving DecidableEq

/-- Terminal outcome of one invocation of the command handler. -/
inductive Outcome
  | unsupportedPlatform
  | noRemoteWorkspace
  | noRemoteHost
  | noFiles
  | envCheckFailed (reason : String)
  | noDestination
  | transfer (result : TransferOutcome)
deriving DecidableEq

/-- Observable result of one invocation: outcome, shell commands handed to
exec in order, and the transfer command if it was built. -/
structure Run where
  outcome : Outcome
  invocations : List String
  commandBuilt : Option String
deriving DecidableEq

/-- Suffix of the haystack after the first occurrence of the pattern, or
none when the pattern does not occur. -/
def afterFirst (pat : List Char) : List Char → Option (List Char)
  | [] => none
  | c :: cs =>
      if isPrefixChars pat (c :: cs) then some ((c :: cs).drop pat.length)
      else afterFirst pat cs

/-- Model of remoteAuthority.match(ssh-remote plus sign, capture rest):
the captured group is everything after the first occurrence of the
literal prefix, and the match fails when that remainder is empty. -/
def parseRemoteName (authority : String) : Option String :=
  match afterFirst "ssh-remote+".data authority.data with
  | some rest => if rest.isEmpty then none else some (String.mk rest)
  | none => none

/-- The uriList of the source: selectedUris when the argument was present
(including an explicitly empty array), otherwise the single primary
fileUri. -/
def uriListOf (env : Env) : List String :=
  match env.selectedUris with
  | some uris => uris
  | none => [env.fileUriPath]

/-- Install command per platform: Homebrew on darwin, apt-get on linux,
none elsewhere (the promise rejects before executing anything). -/
def installCommand (platform : String) : Option String :=
  if platform = "darwin" then some "brew install rsync"
  else if platform = "linux" then some "sudo apt-get install -y rsync"
  else none

/-- Probe command of checkRsyncVersion. -/
def rsyncVersionCommand : String := "rsync --version"

/-- Probe command of testPasswordlessSSH. -/
def sshTestCommand (remoteName : String) : String :=
  "ssh -o BatchMode=yes \"" ++ (remoteName ++ "\" exit")

/-- Message thrown when the user declines the rsync install. -/
def rsyncRequiredMsg : String := "rsync is required for Fast Download."

/-- Message thrown when the rsync install was attempted and failed (or the
platform has no install command). -/
def rsyncInstallFailedMsg : String := "rsync installation failed."

/-- Message thrown when passwordless SSH is not configured. -/
def sshRequiredMsg : String := "Passwordless SSH is required for Fast Download."

/-- Step 4a of the handler: always run the version probe; when it reports
missing or outdated, install after a Yes answer (failing on install
error or unsupported platform), abort when the user declines. -/
def rsyncStep (env : Env) : List String × Except String Unit :=
  if env.rsyncOk then ([rsyncVersionCommand], Except.ok ())
  else if env.installChoice = some "Yes" then
    match installCommand env.platform with
    | some cmd =>
        if env.installFails then ([rsyncVersionCommand, cmd], Except.error rsyncInstallFailedMsg)
        else ([rsyncVersionCommand, cmd], Except.ok ())
    | none => ([rsyncVersionCommand], Except.error rsyncInstallFailedMsg)
  else ([rsyncVersionCommand], Except.error rsyncRequiredMsg)

/-- Steps 4a and 4b of the handler: the rsync check, then (only when it
passed) the passwordless SSH probe, which aborts on a false result no
matter what the user answers to the instructions dialog. -/
def envCheck (env : Env) (remoteName : String) : List String × Except String Unit :=
  match rsyncStep env with
  | (invs, Except.error e) => (invs, Except.error e)
  | (invs, Except.ok _) =>
      if env.sshOk then (invs ++ [sshTestCommand remoteName], Except.ok ())
      else (invs ++ [sshTestCommand remoteName], Except.error sshRequiredMsg)

/-- Step 5 of the handler: the configured default download location when
it is truthy, otherwise the input box result (none when cancelled). -/
def destinationPathOf (env : Env) : Option String :=
  match env.defaultDownloadLocation with
  | some s => if s = "" then env.inputBoxResult else some s
  | none => env.inputBoxResult

/-- Embedding of the whole compress_download command handler. -/
def compressDownload (env : Env) : Run :=
  if env.platform = "win32" then ⟨Outcome.unsupportedPlatform, [], none⟩
  else
    match env.folder with
    | none => ⟨Outcome.noRemoteWorkspace, [], none⟩
    | some f =>
        if f.scheme ≠ "vscode-remote" then ⟨Outcome.noRemoteWorkspace, [], none⟩
        else
          match parseRemoteName f.authority with
          | none => ⟨Outcome.noRemoteHost, [], none⟩
          | some remoteName =>
              if uriListOf env = [] then ⟨Outcome.noFiles, [], none⟩
              else
                match envCheck env remoteName with
                | (invs, Except.error reason) => ⟨Outcome.envCheckFailed reason, invs, none⟩
                | (invs, Except.ok _) =>
                    match destinationPathOf env with
                    | none => ⟨Outcome.noDestination, invs, none⟩
                    | some dest =>
                        if dest = "" then ⟨Outcome.noDestination, invs, none⟩
                        else
                          let command := buildCommand remoteName (uriListOf env) dest
                          ⟨Outcome.transfer (classify env.rsyncResult),
                           invs ++ [command], some command⟩

/-! ## Supporting lemmas for the claims -/

theorem buildCommand_includes_batchmode (r d : String) (ps : List String) :
    includes (buildCommand r ps d) "BatchMode=yes" = true := by
  unfold buildCommand
  have hsplit : rsyncPrefixStr = "rsync -P -avz -e \"ssh -o " ++ ("BatchMode=yes" ++ "\" ") := by
    decide
  rw [hsplit, String.append_assoc, String.append_assoc]
  exact includes_append_mid _ _ _

/-! ## Claim theorems -/

/-- C7: for all well-formed dotted-numeric version strings A and B, the
version comparator satisfies compare(A,B) = -compare(B,A) and
compare(A,A) = 0. -/
theorem c7_comparator_antisym_refl (v1 v2 : String)
    (_h1 : wellFormedVersion v1 = true) (_h2 : wellFormedVersion v2 = true) :
    compareVersions v1 v2 = -(compareVersions v2 v1) ∧ compareVersions v1 v1 = 0 :=
  ⟨cmpParts_neg (parsedParts v1) (parsedParts v2), cmpParts_refl (parsedParts v1)⟩

/-- Witness for C7 at the concrete well-formed versions 3.1 and 3.0.9. -/
theorem c7_comparator_antisym_refl_witness :
    (wellFormedVersion "3.1" = true ∧ wellFormedVersion "3.0.9" = true) ∧
    (compareVersions "3.1" "3.0.9" = -(compareVersions "3.0.9" "3.1") ∧
      compareVersions "3.1" "3.1" = 0) :=
  ⟨⟨by decide, by decide⟩, c7_comparator_antisym_refl "3.1" "3.0.9" (by decide) (by decide)⟩

/-- C8: the comparator pads the shorter tuple with zeros to the longer
length and compares componentwise left to right, returning on the first
differing component; hence compare("3.0","3.0.0") = 0 and
compare("3.1.0","3.0.9") = 1. -/
theorem c8_comparator_zero_padding (v1 v2 : String)
    (h1 : wellFormedVersion v1 = true) (h2 : wellFormedVersion v2 = true) :
    compareVersions v1 v2 =
      lexCompare
        (padZeros (versionParts v1) (max (versionParts v1).length (versionParts v2).length))
        (padZeros (versionParts v2) (max (versionParts v1).length (versionParts v2).length)) ∧
    compareVersions "3.0" "3.0.0" = 0 ∧ compareVersions "3.1.0" "3.0.9" = 1 :=
  ⟨compareVersions_eq_lexCompare v1 v2 h1 h2, by decide, by decide⟩

/-- Witness for C8 at the concrete well-formed versions 2.6.9 and 2.7. -/
theorem c8_comparator_zero_padding_witness :
    (wellFormedVersion "2.6.9" = true ∧ wellFormedVersion "2.7" = true) ∧
    (compareVersions "2.6.9" "2.7" =
      lexCompare
        (padZeros (versionParts "2.6.9")
          (max (versionParts "2.6.9").length (versionParts "2.7").length))
        (padZeros (versionParts "2.7")
          (max (versionParts "2.6.9").length (versionParts "2.7").length)) ∧
    compareVersions "3.0" "3.0.0" = 0 ∧ compareVersions "3.1.0" "3.0.9" = 1) :=
  ⟨⟨by decide, by decide⟩, c8_comparator_zero_padding "2.6.9" "2.7" (by decide) (by decide)⟩

/-- C1 counterexample: with exit code 0 (exec error null) and stderr
containing "Permission denied", the source classifies success, while the
claim (classifySpec) demands authFailure. -/
theorem c1_counterexample :
    classify ⟨none, "", "Permission denied"⟩ = TransferOutcome.success ∧
    classifySpec (exitCodeOf ⟨none, "", "Permission denied"⟩) "Permission denied" =
      TransferOutcome.authFailure := by
  constructor
  · rfl
  · decide

/-- C1 amended: the auth-substring scan runs only inside the failure
branch, so precedence is exit-code success first, then auth failure over
generic failure: no error means success regardless of stderr; an error
with an auth substring means authFailure regardless of which code; an
error without an auth substring means genericFailure carrying that code
and the stderr text. -/
theorem c1_amended_classification (r : ExecResult) :
    (r.exitError = none → classify r = TransferOutcome.success) ∧
    (∀ c, r.exitError = some c → authErrorIn r.stderr = true →
      classify r = TransferOutcome.authFailure) ∧
    (∀ c, r.exitError = some c → authErrorIn r.stderr = false →
      classify r = TransferOutcome.genericFailure c r.stderr) := by
  refine ⟨?_, ?_, ?_⟩
  · intro h
    unfold classify
    rw [h]
  · intro c hc ha
    unfold classify
    rw [hc]
    simp [ha]
  · intro c hc ha
    unfold classify
    rw [hc]
    simp [ha]

/-- Witness for C1 amended: exit code 23 with non-auth stderr is a
generic failure carrying the code and the stderr text. -/
theorem c1_amended_classification_witness :
    classify ⟨some 23, "", "rsync error 23"⟩ = TransferOutcome.genericFailure 23 "rsync error 23" :=
  (c1_amended_classification ⟨some 23, "", "rsync error 23"⟩).2.2 23 rfl (by decide)

/-- C2 counterexample: on an auth failure the callback emits only the
final error message, so the non-empty stdout never reaches the reporter,
let alone before the outcome report. -/
theorem c2_counterexample :
    ¬ claimC2Holds ⟨some 255, "sent 1234 bytes", "Permission denied"⟩ "/local/out" := by
  intro h
  have h1 := h.1 (by decide)
  exact absurd h1 (by decide)

/-- C2 amended: output reaches the reporter before the final outcome only
on the success path, where stdout is appended to the output channel
before the completion message; on any failure nothing precedes the
outcome report, and in the non-auth failure the stderr text is carried
inside the single failure message itself. -/
theorem c2_amended_output_delivery (r : ExecResult) (d : String) :
    (r.exitError = none → deliveredBeforeFinal (execCallback r d) r.stdout = true) ∧
    (∀ c, r.exitError = some c → (execCallback r d).dropLast = []) ∧
    (∀ c, r.exitError = some c → authErrorIn r.stderr = false →
      ∃ e, execCallback r d = [e] ∧ includes (eventText e) r.stderr = true) := by
  refine ⟨?_, ?_, ?_⟩
  · intro h
    unfold execCallback
    rw [h]
    simp [deliveredBeforeFinal, eventText, includes_refl]
  · intro c hc
    unfold execCallback
    rw [hc]
    by_cases ha : authErrorIn r.stderr = true
    · simp [ha]
    · simp [ha]
  · intro c hc ha
    unfold execCallback
    rw [hc]
    simp only [ha, if_false, Bool.false_eq_true]
    refine ⟨_, rfl, ?_⟩
    exact includes_append_mid "rsync failed: " r.stderr ". Please check the output for more details."

/-- Witness for C2 amended: on success, stdout is delivered to the output
channel before the completion message. -/
theorem c2_amended_output_delivery_witness :
    deliveredBeforeFinal (execCallback ⟨none, "sent 42 bytes", ""⟩ "/tmp/out") "sent 42 bytes" =
      true :=
  (c2_amended_output_delivery ⟨none, "sent 42 bytes", ""⟩ "/tmp/out").1 rfl

/-- C3: for a non-empty target list the built command is the space join of
a single rsync invocation's tokens: the fixed rsync tokens with the
forced BatchMode inner transport, one quoted remote:path token per target
in the given order (duplicates preserved by map), and the quoted
destination as the last token; the BatchMode flag occurs in the command. -/
theorem c3_command_construction (r d : String) (ps : List String) (h : ps ≠ []) :
    buildCommand r ps d = joinSp (commandTokens r ps d) ∧
    commandTokens r ps d = rsyncFixedTokens ++ (ps.map (remoteFileToken r) ++ [dquote d]) ∧
    (commandTokens r ps d).getLast? = some (dquote d) ∧
    includes (buildCommand r ps d) "BatchMode=yes" = true := by
  refine ⟨buildCommand_eq_joinSp_tokens r d ps h, rfl, ?_, ?_⟩
  · unfold commandTokens
    rw [← List.append_assoc]
    exact List.getLast?_concat _
  · exact buildCommand_includes_batchmode r d ps

/-- Witness for C3 at the spec's concrete example: remote alice@host,
targets /a/b and /a/c d (with a space), destination /local/out. -/
theorem c3_command_construction_witness :
    buildCommand "alice@host" ["/a/b", "/a/c d"] "/local/out" =
      joinSp (commandTokens "alice@host" ["/a/b", "/a/c d"] "/local/out") ∧
    commandTokens "alice@host" ["/a/b", "/a/c d"] "/local/out" =
      rsyncFixedTokens ++
        (["/a/b", "/a/c d"].map (remoteFileToken "alice@host") ++ [dquote "/local/out"]) ∧
    (commandTokens "alice@host" ["/a/b", "/a/c d"] "/local/out").getLast? =
      some (dquote "/local/out") ∧
    includes (buildCommand "alice@host" ["/a/b", "/a/c d"] "/local/out") "BatchMode=yes" = true :=
  c3_command_construction "alice@host" "/local/out" ["/a/b", "/a/c d"] (by decide)

theorem envCheck_ok_ssh (env : Env) (r : String) (invs : List String) (u : Unit)
    (h : envCheck env r = (invs, Except.ok u)) : env.sshOk = true := by
  unfold envCheck at h
  cases hstep : rsyncStep env with
  | mk invs2 res =>
      rw [hstep] at h
      cases res with
      | error e => simp at h
      | ok v =>
          cases hssh : env.sshOk with
          | true => rfl
          | false =>
              rw [hssh] at h
              simp at h

/-- C4: when the rsync probe reports missing or outdated and the user
declines the install, the run ends blocked with the rsync-required
reason, no transfer command is built, and the only subprocess run was the
version probe itself. -/
theorem c4_decline_install_blocks (env : Env) (f : Folder) (remoteName : String)
    (hp : env.platform ≠ "win32")
    (hf : env.folder = some f)
    (hs : f.scheme = "vscode-remote")
    (hr : parseRemoteName f.authority = some remoteName)
    (hu : uriListOf env ≠ [])
    (hok : env.rsyncOk = false)
    (hno : env.installChoice ≠ some "Yes") :
    (compressDownload env).outcome = Outcome.envCheckFailed rsyncRequiredMsg ∧
    (compressDownload env).commandBuilt = none ∧
    (compressDownload env).invocations = [rsyncVersionCommand] := by
  have hstep : rsyncStep env = ([rsyncVersionCommand], Except.error rsyncRequiredMsg) := by
    unfold rsyncStep
    simp [hok, hno]
  have hcheck : envCheck env remoteName = ([rsyncVersionCommand], Except.error rsyncRequiredMsg) := by
    unfold envCheck
    rw [hstep]
  refine ⟨?_, ?_, ?_⟩ <;> simp [compressDownload, hp, hf, hs, hr, hu, hcheck]

/-- Witness for C4: a linux run with a remote workspace, one primary
target, a failing rsync probe and a No answer to the install dialog. -/
theorem c4_decline_install_blocks_witness :
    (compressDownload
        ⟨"linux", some ⟨"vscode-remote", "ssh-remote+alice@host"⟩, "/a/b", none,
         false, some "No", false, true, none, false, none, none, ⟨none, "", ""⟩⟩).outcome =
      Outcome.envCheckFailed rsyncRequiredMsg ∧
    (compressDownload
        ⟨"linux", some ⟨"vscode-remote", "ssh-remote+alice@host"⟩, "/a/b", none,
         false, some "No", false, true, none, false, none, none, ⟨none, "", ""⟩⟩).commandBuilt =
      none ∧
    (compressDownload
        ⟨"linux", some ⟨"vscode-remote", "ssh-remote+alice@host"⟩, "/a/b", none,
         false, some "No", false, true, none, false, none, none, ⟨none, "", ""⟩⟩).invocations =
      [rsyncVersionCommand] :=
  c4_decline_install_blocks _ ⟨"vscode-remote", "ssh-remote+alice@host"⟩ "alice@host"
    (by decide) rfl rfl (by decide) (by decide) rfl (by decide)

/-- C5: whenever the passwordless SSH probe resolves false, no transfer
command is ever built and the run never reaches a transfer outcome, no
matter how the user answers the instructions dialog. -/
theorem c5_auth_failure_blocks (env : Env) (h : env.sshOk = false) :
    (compressDownload env).commandBuilt = none ∧
    ∀ t, (compressDownload env).outcome ≠ Outcome.transfer t := by
  unfold compressDownload
  split
  · exact ⟨rfl, fun t hc => Outcome.noConfusion hc⟩
  · split
    · exact ⟨rfl, fun t hc => Outcome.noConfusion hc⟩
    · split
      · exact ⟨rfl, fun t hc => Outcome.noConfusion hc⟩
      · split
        · exact ⟨rfl, fun t hc => Outcome.noConfusion hc⟩
        · split
          · exact ⟨rfl, fun t hc => Outcome.noConfusion hc⟩
          · split
            · exact ⟨rfl, fun t hc => Outcome.noConfusion hc⟩
            · rename_i invs val heq
              have hssh := envCheck_ok_ssh env _ _ _ heq
              rw [h] at hssh
              exact Bool.noConfusion hssh

/-- Witness for C5: the probe fails and the user answers Yes to viewing
the setup instructions; still no transfer is built or attempted. -/
theorem c5_auth_failure_blocks_witness :
    (compressDownload
        ⟨"linux", some ⟨"vscode-remote", "ssh-remote+alice@host"⟩, "/a/b", none,
         true, none, false, false, some "Yes", true, none, none, ⟨none, "", ""⟩⟩).commandBuilt =
      none ∧
    ∀ t,
      (compressDownload
          ⟨"linux", some ⟨"vscode-remote", "ssh-remote+alice@host"⟩, "/a/b", none,
           true, none, false, false, some "Yes", true, none, none, ⟨none, "", ""⟩⟩).outcome ≠
        Outcome.transfer t :=
  c5_auth_failure_blocks _ rfl

/-- C6: on win32 the handler returns before anything else happens: the
unsupported-platform outcome, an empty invocation list, and no command. -/
theorem c6_win32_short_circuit (env : Env) (h : env.platform = "win32") :
    compressDownload env = ⟨Outcome.unsupportedPlatform, [], none⟩ := by
  simp [compressDownload, h]

/-- Witness for C6 at a concrete win32 environment. -/
theorem c6_win32_short_circuit_witness :
    compressDownload
        ⟨"win32", some ⟨"vscode-remote", "ssh-remote+alice@host"⟩, "/a/b", none,
         true, none, false, true, none, false, none, some "/local/out", ⟨none, "", ""⟩⟩ =
      ⟨Outcome.unsupportedPlatform, [], none⟩ :=
  c6_win32_short_circuit _ rfl

/-- C9: with no truthy configured default location and no truthy input
box answer, a run that passed the environment checks aborts with the
no-destination outcome; no transfer command is built, and the only
subprocesses run were the preflight probes. -/
theorem c9_no_destination_aborts (env : Env) (f : Folder) (remoteName : String)
    (hp : env.platform ≠ "win32")
    (hf : env.folder = some f)
    (hs : f.scheme = "vscode-remote")
    (hr : parseRemoteName f.authority = some remoteName)
    (hu : uriListOf env ≠ [])
    (henv : (envCheck env remoteName).2 = Except.ok ())
    (hd : env.defaultDownloadLocation = none ∨ env.defaultDownloadLocation = some "")
    (hi : env.inputBoxResult = none ∨ env.inputBoxResult = some "") :
    (compressDownload env).outcome = Outcome.noDestination ∧
    (compressDownload env).commandBuilt = none ∧
    (compressDownload env).invocations = (envCheck env remoteName).1 := by
  obtain ⟨invs, heq⟩ : ∃ invs, envCheck env remoteName = (invs, Except.ok ()) :=
    ⟨(envCheck env remoteName).1, by rw [← henv]⟩
  have hdest : destinationPathOf env = none ∨ destinationPathOf env = some "" := by
    unfold destinationPathOf
    rcases hd with hd | hd
    · rw [hd]
      exact hi
    · rw [hd]
      simpa using hi
  rcases hdest with h9 | h9 <;>
    refine ⟨?_, ?_, ?_⟩ <;>
      simp [compressDownload, hp, hf, hs, hr, hu, heq, h9]

/-- Witness for C9: checks pass, no default location configured, input
box cancelled. -/
theorem c9_no_destination_aborts_witness :
    (compressDownload
        ⟨"linux", some ⟨"vscode-remote", "ssh-remote+alice@host"⟩, "/a/b", none,
         true, none, false, true, none, false, none, none, ⟨none, "", ""⟩⟩).outcome =
      Outcome.noDestination ∧
    (compressDownload
        ⟨"linux", some ⟨"vscode-remote", "ssh-remote+alice@host"⟩, "/a/b", none,
         true, none, false, true, none, false, none, none, ⟨none, "", ""⟩⟩).commandBuilt =
      none ∧
    (compressDownload
        ⟨"linux", some ⟨"vscode-remote", "ssh-remote+alice@host"⟩, "/a/b", none,
         true, none, false, true, none, false, none, none, ⟨none, "", ""⟩⟩).invocations =
      (envCheck
        ⟨"linux", some ⟨"vscode-remote", "ssh-remote+alice@host"⟩, "/a/b", none,
         true, none, false, true, none, false, none, none, ⟨none, "", ""⟩⟩ "alice@host").1 :=
  c9_no_destination_aborts _ ⟨"vscode-remote", "ssh-remote+alice@host"⟩ "alice@host"
    (by decide) rfl rfl (by decide) (by decide) rfl (Or.inl rfl) (Or.inl rfl)

/-- C10: with the multi-selection argument absent the target list is
exactly the single primary target; with an explicitly empty selection the
run aborts with the no-files outcome before any subprocess runs and
before any command is built. -/
theorem c10_target_list_selection (env : Env) (f : Folder) (remoteName : String)
    (hp : env.platform ≠ "win32")
    (hf : env.folder = some f)
    (hs : f.scheme = "vscode-remote")
    (hr : parseRemoteName f.authority = some remoteName) :
    (env.selectedUris = none → uriListOf env = [env.fileUriPath]) ∧
    (env.selectedUris = some [] →
      (compressDownload env).outcome = Outcome.noFiles ∧
      (compressDownload env).invocations = [] ∧
      (compressDownload env).commandBuilt = none) := by
  constructor
  · intro h
    unfold uriListOf
    rw [h]
  · intro h
    have hu : uriListOf env = [] := by
      unfold uriListOf
      rw [h]
    refine ⟨?_, ?_, ?_⟩ <;> simp [compressDownload, hp, hf, hs, hr, hu]

/-- Witness for C10: an explicitly empty selection list aborts with the
no-files outcome and an empty invocation list. -/
theorem c10_target_list_selection_witness :
    ((⟨"linux", some ⟨"vscode-remote", "ssh-remote+alice@host"⟩, "/a/b", some ([] : List String),
        true, none, false, true, none, false, none, none, ⟨none, "", ""⟩⟩ : Env).selectedUris =
          none →
      uriListOf
          ⟨"linux", some ⟨"vscode-remote", "ssh-remote+alice@host"⟩, "/a/b", some [],
           true, none, false, true, none, false, none, none, ⟨none, "", ""⟩⟩ =
        ["/a/b"]) ∧
    ((⟨"linux", some ⟨"vscode-remote", "ssh-remote+alice@host"⟩, "/a/b", some [],
        true, none, false, true, none, false, none, none, ⟨none, "", ""⟩⟩ : Env).selectedUris =
          some [] →
      (compressDownload
          ⟨"linux", some ⟨"vscode-remote", "ssh-remote+alice@host"⟩, "/a/b", some [],
           true, none, false, true, none, false, none, none, ⟨none, "", ""⟩⟩).outcome =
        Outcome.noFiles ∧
      (compressDownload
          ⟨"linux", some ⟨"vscode-remote", "ssh-remote+alice@host"⟩, "/a/b", some [],
           true, none, false, true, none, false, none, none, ⟨none, "", ""⟩⟩).invocations =
        [] ∧
      (compressDownload
          ⟨"linux", some ⟨"vscode-remote", "ssh-remote+alice@host"⟩, "/a/b", some [],
           true, none, false, true, none, false, none, none, ⟨none, "", ""⟩⟩).commandBuilt =
        none) :=
  c10_target_list_selection _ ⟨"vscode-remote", "ssh-remote+alice@host"⟩ "alice@host"
    (by decide) rfl rfl (by decide)
